import Mathlib

/-!
Verification development for the terrain-population core of the
COMP_3501 "Alien Appropriation" repository, consisting of the Poisson-disk
blue-noise sampler (`src/AlienAppropriation/PoissonGenerator.h`) and the
map/cluster generator (`src/AlienAppropriation/map_generator.cpp`).

The C++ code is shallowly embedded: `float` arithmetic becomes exact `ℚ`
arithmetic, comparisons of `sqrt`-distances against a threshold are embedded
as comparisons of squared distances against the squared threshold (valid for
nonnegative thresholds since `sqrt` is monotone), the irrational constants
`sqrt(2.0f)`, `cos`, `sin` and `glm::orientedAngle∘normalize` are abstracted
as parameters of the development, mutable state is threaded explicitly, the
`mt19937`-backed PRNG is abstracted as a state machine satisfying the
contracts of `std::uniform_real_distribution(0,1)` and
`std::uniform_int_distribution(0,max)`, and the two unbounded `while` loops
of `generatePoissonPoints` take explicit fuel, returning `none` when the
fuel runs out.  Undefined behaviour (an out-of-range `std::vector` index) and
a thrown `std::out_of_range` (from `std::vector::at`) are both modelled as
`none`; every theorem about a run is conditioned on the run producing
`some` result.
-/

namespace PoissonGenerator

/-- C truncation toward zero, the semantics of `(int)` casting a
nonnegative-or-negative float in `imageToGrid`. -/
def trunc (q : ℚ) : ℤ := if 0 ≤ q then ⌊q⌋ else ⌈q⌉

/-- `struct Point` (PoissonGenerator.h lines 85-108): the default constructor
leaves `valid_ = false`; the `(X, Y)` constructor sets `valid_ = true`. -/
structure Point where
  x : ℚ
  y : ℚ
  valid_ : Bool
deriving DecidableEq, Repr

/-- The `Point(X, Y)` constructor: sets `valid_` to true. -/
def Point.mkXY (X Y : ℚ) : Point := ⟨X, Y, true⟩

/-- The default-constructed `Point`: `x = 0`, `y = 0`, `valid_ = false`. -/
def Point.dflt : Point := ⟨0, 0, false⟩

/-- `Point::isInRectangle` (line 97): `x >= 0 && y >= 0 && x <= 1 && y <= 1`. -/
def Point.isInRectangle (p : Point) : Bool :=
  decide (0 ≤ p.x ∧ 0 ≤ p.y ∧ p.x ≤ 1 ∧ p.y ≤ 1)

/-- `Point::isInCircle` (line 102): `(x-0.5)^2 + (y-0.5)^2 <= 0.25`
(the float constants 0.5 and 0.25 are exact in binary). -/
def Point.isInCircle (p : Point) : Bool :=
  decide ((p.x - 1/2) ^ 2 + (p.y - 1/2) ^ 2 ≤ 1/4)

/-- The inline conditional `isCircle ? p.isInCircle() : p.isInRectangle()`
used at lines 241, 261. -/
def inDomain (isCircle : Bool) (p : Point) : Bool :=
  if isCircle then p.isInCircle else p.isInRectangle

/-- `struct GridPoint` (lines 110-119). -/
structure GridPoint where
  x : ℤ
  y : ℤ
deriving DecidableEq, Repr

/-- Squared Euclidean distance.  `getDistance` (line 121) is
`sqrt` of this quantity; all comparisons of `getDistance` against a
threshold are embedded through `distLt`. -/
def dist2 (p q : Point) : ℚ := (p.x - q.x) ^ 2 + (p.y - q.y) ^ 2

/-- Embedding of `getDistance(P, Q) < m`: for `m ≥ 0` this is
`dist2 P Q < m²` (squaring is monotone on nonnegatives); for `m < 0` it is
false since `sqrt` is nonnegative. -/
def distLt (p q : Point) (m : ℚ) : Bool :=
  decide (0 ≤ m ∧ dist2 p q < m ^ 2)

/-- `imageToGrid` (line 126): `GridPoint((int)(P.x/cellSize), (int)(P.y/cellSize))`. -/
def imageToGrid (p : Point) (cellSize : ℚ) : GridPoint :=
  ⟨trunc (p.x / cellSize), trunc (p.y / cellSize)⟩

/-- Read of `grid_[i][j]` used by the embedding; out-of-range reads only
occur under the bound checks embedded at the call sites. -/
def getCellN (cells : List (List Point)) (i j : ℕ) : Point :=
  (cells.getD i []).getD j Point.dflt

/-- Write of `grid_[i][j] = p`. -/
def setCell (cells : List (List Point)) (i j : ℕ) (p : Point) : List (List Point) :=
  cells.set i ((cells.getD i []).set j p)

/-- `struct Grid` (lines 131-175): `w_`, `h_`, `cellSize_` and the
2-dimensional point store `grid_`. -/
structure Grid where
  w : ℤ
  h : ℤ
  cellSize : ℚ
  cells : List (List Point)
deriving DecidableEq, Repr

/-- The `Grid(w, h, cellSize)` constructor (line 133): `grid_.resize(h_)`
then each row is resized to `w`, so `grid_` has `h` rows of `w`
default-constructed (invalid) points. -/
def Grid.create (w h : ℤ) (cellSize : ℚ) : Grid :=
  ⟨w, h, cellSize, List.replicate h.toNat (List.replicate w.toNat Point.dflt)⟩

/-- `Grid::insert` (lines 141-145): `grid_[g.x][g.y] = p` with NO bound
check in the source; an out-of-range index is undefined behaviour, modelled
as `none`.  The defined-behaviour condition is exactly that the indices fall
inside the actual vector extents. -/
def Grid.insert (g : Grid) (p : Point) : Option Grid :=
  let gp := imageToGrid p g.cellSize
  if 0 ≤ gp.x ∧ 0 ≤ gp.y ∧ gp.x.toNat < g.cells.length ∧
      gp.y.toNat < (g.cells.getD gp.x.toNat []).length then
    some { g with cells := setCell g.cells gp.x.toNat gp.y.toNat p }
  else none

/-- The scan offsets of `isInNeighbourhood` (lines 154-156):
`for (i = g.x - D; i < g.x + D; i++)` with `D = 5`, i.e. offsets
`-5, -4, ..., 4`. -/
def offsetsD : List ℤ := (List.range 10).map fun d => (d : ℤ) - 5

/-- `Grid::isInNeighbourhood` (lines 146-168): scans the `[-5, 4]²` offset
window around the point's cell, each access guarded by the explicit bound
check `i >= 0 && i < w_ && j >= 0 && j < h_` (line 158), and returns true
iff some valid occupant lies strictly closer than `minDist`. -/
def Grid.isInNeighbourhood (g : Grid) (point : Point) (minDist cellSize : ℚ) : Bool :=
  let gp := imageToGrid point cellSize
  offsetsD.any fun di => offsetsD.any fun dj =>
    let i := gp.x + di
    let j := gp.y + dj
    decide (0 ≤ i ∧ i < g.w ∧ 0 ≤ j ∧ j < g.h) &&
      ((getCellN g.cells i.toNat j.toNat).valid_ &&
        distLt (getCellN g.cells i.toNat j.toNat) point minDist)

/-- Abstraction of `DefaultPRNG` (lines 52-83) and any PRNG usable with the
templated sampler: a state machine whose draws satisfy the contracts of
`std::uniform_real_distribution<float>(0,1)` (values in `[0,1)`) and
`std::uniform_int_distribution<>(0, maxValue)` (values in `[0, maxValue]`). -/
structure PRNG (σ : Type) where
  randomFloat : σ → ℚ × σ
  randomInt : σ → ℕ → ℕ × σ
  randomFloat_nonneg : ∀ s, 0 ≤ (randomFloat s).1
  randomFloat_lt_one : ∀ s, (randomFloat s).1 < 1
  randomInt_le : ∀ s m, (randomInt s m).1 ≤ m

/-- The ambient irrational operations of the sampler, abstracted as rational
models: `cosF`/`sinF` model `cos`/`sin` (line 200), `sqrtQ` models `sqrt`
(used at lines 224 and 231 for `sqrt(numPoints)` and `sqrt(2.0f)`). -/
structure SamplerCtx (σ : Type) where
  prng : PRNG σ
  cosF : ℚ → ℚ
  sinF : ℚ → ℚ
  sqrtQ : ℚ → ℚ

/-- The float literal `3.141592653589f` of line 197. -/
def piQ : ℚ := 3.141592653589

/-- `popRandom` (lines 177-184): draw `idx ∈ [0, size-1]`, return
`points[idx]` and erase it. -/
def popRandom {σ : Type} (ctx : SamplerCtx σ) (points : List Point) (s : σ) :
    Point × List Point × σ :=
  let r := ctx.prng.randomInt s (points.length - 1)
  (points.getD r.1 Point.dflt, points.eraseIdx r.1, r.2)

/-- `generateRandomPointAround` (lines 186-204): a candidate at radius
`minDist * (R1 + 1)` and angle `2π·R2` around `p`; the `Point(x, y)`
constructor marks it valid. -/
def generateRandomPointAround {σ : Type} (ctx : SamplerCtx σ) (p : Point)
    (minDist : ℚ) (s : σ) : Point × σ :=
  let d1 := ctx.prng.randomFloat s
  let d2 := ctx.prng.randomFloat d1.2
  let radius := minDist * (d1.1 + 1)
  let angle := 2 * piQ * d2.1
  (Point.mkXY (p.x + radius * ctx.cosF angle) (p.y + radius * ctx.sinF angle), d2.2)

/-- The `do { firstPoint = Point(randomFloat(), randomFloat()); } while`
rejection loop of lines 238-241, with explicit fuel (`none` models a run
that has not yet produced an in-domain seed). -/
def findFirstPoint {σ : Type} (ctx : SamplerCtx σ) (isCircle : Bool) :
    ℕ → σ → Option (Point × σ)
  | 0, _ => none
  | tries + 1, s =>
    let d1 := ctx.prng.randomFloat s
    let d2 := ctx.prng.randomFloat d1.2
    let firstPoint := Point.mkXY d1.1 d2.1
    if inDomain isCircle firstPoint then some (firstPoint, d2.2)
    else findFirstPoint ctx isCircle tries d2.2

/-- The inner candidate loop `for (i = 0; i < newPointsCount; i++)` of lines
258-270: each candidate is accepted iff it fits the domain and
`isInNeighbourhood` is false, in which case it is appended to the process
list and the sample list and inserted into the grid. -/
def tryCandidates {σ : Type} (ctx : SamplerCtx σ) (isCircle : Bool)
    (minDist cellSize : ℚ) (point : Point) :
    ℕ → Grid → List Point → List Point → σ →
      Option (Grid × List Point × List Point × σ)
  | 0, grid, pl, sp, s => some (grid, pl, sp, s)
  | i + 1, grid, pl, sp, s =>
    let gen := generateRandomPointAround ctx point minDist s
    let newPoint := gen.1
    let canFitPoint := inDomain isCircle newPoint
    if canFitPoint && ! grid.isInNeighbourhood newPoint minDist cellSize then
      match grid.insert newPoint with
      | none => none
      | some g2 =>
        tryCandidates ctx isCircle minDist cellSize point i g2
          (pl ++ [newPoint]) (sp ++ [newPoint]) gen.2
    else tryCandidates ctx isCircle minDist cellSize point i grid pl sp gen.2

/-- The outer loop `while (!processList.empty() && samplePoints.size() <
numPoints)` of lines 249-271; the guard is tested before any fuel is spent,
mirroring the `while` semantics. -/
def poissonLoop {σ : Type} (ctx : SamplerCtx σ) (numPoints newPointsCount : ℕ)
    (isCircle : Bool) (minDist cellSize : ℚ) :
    ℕ → Grid → List Point → List Point → σ → Option (List Point)
  | fuel, grid, processList, samplePoints, s =>
    if processList = [] ∨ ¬ samplePoints.length < numPoints then some samplePoints
    else
      match fuel with
      | 0 => none
      | fuel' + 1 =>
        let pr := popRandom ctx processList s
        match tryCandidates ctx isCircle minDist cellSize pr.1 newPointsCount
            grid pr.2.1 samplePoints pr.2.2 with
        | none => none
        | some out =>
          poissonLoop ctx numPoints newPointsCount isCircle minDist cellSize
            fuel' out.1 out.2.1 out.2.2.1 out.2.2.2

/-- `generatePoissonPoints` (lines 213-278).  `minDist0 < 0` triggers the
auto-derivation `sqrt(numPoints)/numPoints`; the cell size is
`minDist / sqrt(2.0f)`; the grid is square with side `ceil(1/cellSize)`;
the seed point is rejection-sampled, pushed to both lists and inserted, and
then the active-list loop runs.  `seedTries` fuels the seed rejection loop
and `fuel` the active-list loop. -/
def generatePoissonPoints {σ : Type} (ctx : SamplerCtx σ) (numPoints : ℕ)
    (s : σ) (newPointsCount : ℕ) (isCircle : Bool) (minDist0 : ℚ)
    (seedTries fuel : ℕ) : Option (List Point) :=
  let minDist := if minDist0 < 0 then ctx.sqrtQ numPoints / numPoints else minDist0
  let cellSize := minDist / ctx.sqrtQ 2
  let gridW := ⌈(1 : ℚ) / cellSize⌉
  let gridH := ⌈(1 : ℚ) / cellSize⌉
  let grid0 := Grid.create gridW gridH cellSize
  match findFirstPoint ctx isCircle seedTries s with
  | none => none
  | some (firstPoint, s1) =>
    match grid0.insert firstPoint with
    | none => none
    | some grid1 =>
      poissonLoop ctx numPoints newPointsCount isCircle minDist cellSize fuel
        grid1 [firstPoint] [firstPoint] s1

end PoissonGenerator

section TestInstances

open PoissonGenerator

/-- A concrete deterministic PRNG used to exercise the embedding on closed
inputs: every float draw is `1/2`, every int draw is `0`, the state is a
step counter. -/
def halfPRNG : PRNG ℕ where
  randomFloat := fun s => (1/2, s + 1)
  randomInt := fun s _ => (0, s + 1)
  randomFloat_nonneg := fun _ => by norm_num
  randomFloat_lt_one := fun _ => by norm_num
  randomInt_le := fun _ m => Nat.zero_le m

/-- A concrete sampler context: constant trig models and a rational model of
`sqrt` with `sqrtQ 2 = 3/2` (which satisfies `2 ≤ (3/2)² ∧ 3/2 ≤ 2`) and
`sqrtQ q = 1` elsewhere. -/
def testCtx : SamplerCtx ℕ where
  prng := halfPRNG
  cosF := fun _ => 1
  sinF := fun _ => 0
  sqrtQ := fun q => if q = 2 then 3/2 else 1

end TestInstances

namespace game

open PoissonGenerator

/-- 2D world-space vector, the embedding of `glm::vec2`. -/
abbrev Vec2 : Type := ℚ × ℚ

/-- Squared Euclidean distance on `Vec2`; `glm::distance` is `sqrt` of this,
and the comparison `glm::distance u v < r` with `r ≥ 0` is embedded as
`dist2v u v < r²`. -/
def dist2v (u v : Vec2) : ℚ := (u.1 - v.1) ^ 2 + (u.2 - v.2) ^ 2

/-- The `Object` record stored in the placement grid (declared in the
repository's `map_generator.h`; every field is visible from its uses in
`map_generator.cpp`): world position, grid cell coordinates `a`, `b`,
a category string `type`, and a rotation in degrees. -/
structure Object where
  pos : Vec2
  a : ℤ
  b : ℤ
  type : String
  rotation : ℚ
deriving DecidableEq, Repr

/-- The placement grid `std::vector<std::vector<std::vector<Object>>> grid`:
`gridWidth` columns, each of `gridHeight` cells, each an ordered bucket. -/
abbrev PlacementGrid : Type := List (List (List Object))

/-- Read of the bucket `grid.at(a).at(b)`; negative or too-large indices are
only passed at call sites that guard them, so the default `[]` branch models
no reachable behaviour. -/
def cellAt (g : PlacementGrid) (a b : ℤ) : List Object :=
  if 0 ≤ a ∧ 0 ≤ b then (g.getD a.toNat []).getD b.toNat [] else []

/-- `grid.at(a).at(b).push_back(o)`: append `o` to the bucket at `(a, b)`. -/
def appendAt (g : PlacementGrid) (a b : ℤ) (o : Object) : PlacementGrid :=
  g.set a.toNat
    ((g.getD a.toNat []).set b.toNat ((g.getD a.toNat []).getD b.toNat [] ++ [o]))

/-- The filter of the final instantiation pass of `GenerateMap`
(map_generator.cpp line 76): an object is instantiated iff
`!(type == "default" || type == "originPoint")`. -/
def finalPassKeeps (o : Object) : Bool :=
  ! (o.type == "default" || o.type == "originPoint")

/-- The binning pass of `GenerateMap` (map_generator.cpp lines 47-59): each
unit point is scaled to `(p.x·width, p.y·height)`, its cell is
`floor(pos / cellSize)`, its type is `"originPoint"` when `rand() % 100 < 15`
and `"hay"` otherwise, and it is pushed with `grid.at(a).at(b)` — `at`
performs a checked access that THROWS `std::out_of_range` (modelled as
`none`) when the derived cell is outside the grid; there is no drop-and-
continue path in the source.  `randStream` models the successive `rand()`
draws. -/
def binPoints (width height cellSize : ℚ) (gridWidth gridHeight : ℤ)
    (randStream : ℕ → ℕ) : List Point → ℕ → PlacementGrid → Option PlacementGrid
  | [], _, g => some g
  | p :: rest, i, g =>
    let pos : Vec2 := (p.x * width, p.y * height)
    let a := ⌊pos.1 / cellSize⌋
    let b := ⌊pos.2 / cellSize⌋
    let ty := if randStream i % 100 < 15 then "originPoint" else "hay"
    if 0 ≤ a ∧ a < gridWidth ∧ 0 ≤ b ∧ b < gridHeight then
      binPoints width height cellSize gridWidth gridHeight randStream rest (i + 1)
        (appendAt g a b ⟨pos, a, b, ty, 0⟩)
    else none

/-- The offsets scanned by the clearing loop of `GenerateCluster`
(map_generator.cpp lines 119-120): `for (int x = -1; x < 1; x++)` nested with
`for (int y = -1; y < 1; y++)`, i.e. the four offsets `{-1, 0} × {-1, 0}` —
not a full 3×3 window. -/
def clusterScanOffsets : List (ℤ × ℤ) :=
  (List.range 2).flatMap fun dx => (List.range 2).map fun dy => ((dx : ℤ) - 1, (dy : ℤ) - 1)

/-- The clearing loop of `GenerateCluster` (map_generator.cpp lines 117-130).
For each in-bounds scanned cell the source iterates `for (auto point :
grid.at(..).at(..))` — `point` is a BY-VALUE COPY of each bucket element, so
the write `point.type = "default"` mutates the copy, which is discarded at
the end of the iteration.  The embedding computes the modified copies (the
`_marked` binding) and, exactly like the source, leaves the grid unchanged. -/
def clearingScan (gridWidth gridHeight : ℤ) (origin : Object) (radius : ℚ)
    (grid : PlacementGrid) : PlacementGrid :=
  clusterScanOffsets.foldl
    (fun g d =>
      if origin.a + d.1 < 0 ∨ origin.a + d.1 > gridWidth - 1 ∨
          origin.b + d.2 < 0 ∨ origin.b + d.2 > gridHeight - 1 then g
      else
        let _marked := (cellAt g (origin.a + d.1) (origin.b + d.2)).map fun point =>
          if dist2v origin.pos point.pos < radius ^ 2 then
            { point with type := "default" }
          else point
        g)
    grid

/-- The clearing radius of `GenerateCluster` (map_generator.cpp line 118):
`cellSize` for a barn cluster, `(1 + (rand() % 5) / 5.0f) * cellSize`
otherwise. -/
def clusterRadius (isBarnCluster : Bool) (radiusDraw : ℕ) (cellSize : ℚ) : ℚ :=
  if isBarnCluster then cellSize else (1 + ((radiusDraw % 5 : ℕ) : ℚ) / 5) * cellSize

/-- The world position of a cluster member (map_generator.cpp line 138):
`origin.pos + glm::vec2(p.x * radius, p.y * radius) - radius / 2.0f`
(the scalar subtraction is componentwise). -/
def clusterMemberPos (originPos : Vec2) (radius : ℚ) (p : Point) : Vec2 :=
  (originPos.1 + p.x * radius - radius / 2, originPos.2 + p.y * radius - radius / 2)

/-- The placement loop of `GenerateCluster` (map_generator.cpp lines
136-155): each local sample point is translated around the origin, binned at
`floor(pos / cellSize)`, dropped (`continue`) when its cell is out of range,
and otherwise pushed as a `"barn"` (with a rotation drawn from `rand() % 3`;
case 2 uses `glm::orientedAngle` of normalized vectors, abstracted by
`oriented`) or as a `"tree"`.  `rotStream` models the successive `rand()`
draws of the rotation switch; `rIdx` is the index of the next draw. -/
def placeClusterPoints (oriented : Vec2 → Vec2 → ℚ) (gridWidth gridHeight : ℤ)
    (cellSize : ℚ) (origin : Object) (radius : ℚ) (isBarnCluster : Bool)
    (rotStream : ℕ → ℕ) : List Point → ℕ → PlacementGrid → PlacementGrid
  | [], _, g => g
  | p :: rest, rIdx, g =>
    let pos := clusterMemberPos origin.pos radius p
    let a := ⌊pos.1 / cellSize⌋
    let b := ⌊pos.2 / cellSize⌋
    if a > gridWidth - 1 ∨ a < 0 ∨ b > gridHeight - 1 ∨ b < 0 then
      placeClusterPoints oriented gridWidth gridHeight cellSize origin radius
        isBarnCluster rotStream rest rIdx g
    else if isBarnCluster then
      let c := rotStream rIdx % 3
      let rot : ℚ :=
        if c = 0 then 0 else if c = 1 then 90 else oriented origin.pos (pos - origin.pos)
      placeClusterPoints oriented gridWidth gridHeight cellSize origin radius
        isBarnCluster rotStream rest (rIdx + 1)
        (appendAt g a b ⟨pos, a, b, "barn", rot⟩)
    else
      placeClusterPoints oriented gridWidth gridHeight cellSize origin radius
        isBarnCluster rotStream rest rIdx (appendAt g a b ⟨pos, a, b, "tree", 0⟩)

/-- `MapGenerator::GenerateCluster` (map_generator.cpp lines 111-157):
decide the cluster kind from `rand() % 100 < 20` (`barnDraw`), compute the
clearing radius, run the (ineffective, by-value) clearing scan, choose the
local sample count `n` (`rand() % 6 + 1` for barns, `rand() % 30 + 10`
otherwise, from `nDraw`), run a nested Poisson sampler with `k = 70` and the
default domain (circle) and default `minDist = -1`, and place the members. -/
def GenerateCluster {σ : Type} (ctx : SamplerCtx σ) (oriented : Vec2 → Vec2 → ℚ)
    (gridWidth gridHeight : ℤ) (cellSize : ℚ) (barnDraw radiusDraw nDraw : ℕ)
    (rotStream : ℕ → ℕ) (s : σ) (seedTries fuel : ℕ)
    (grid : PlacementGrid) (origin : Object) : Option PlacementGrid :=
  let isBarnCluster := decide (barnDraw % 100 < 20)
  let radius := clusterRadius isBarnCluster radiusDraw cellSize
  let grid1 := clearingScan gridWidth gridHeight origin radius grid
  let n := if isBarnCluster then nDraw % 6 + 1 else nDraw % 30 + 10
  match generatePoissonPoints ctx n s 70 true (-1) seedTries fuel with
  | none => none
  | some pts =>
    some (placeClusterPoints oriented gridWidth gridHeight cellSize origin radius
      isBarnCluster rotStream pts 0 grid1)

end game

/-! ### Generic list access lemmas used by the grid embeddings -/

theorem getD_set_self {α : Type} :
    ∀ (l : List α) (i : ℕ) (v d : α), i < l.length → (l.set i v).getD i d = v
  | _ :: _, 0, _, _, _ => rfl
  | _ :: t, i + 1, v, d, h => getD_set_self t i v d (Nat.lt_of_succ_lt_succ h)

theorem getD_set_ne {α : Type} :
    ∀ (l : List α) (i j : ℕ) (v d : α), i ≠ j → (l.set i v).getD j d = l.getD j d
  | [], _, _, _, _, _ => rfl
  | _ :: _, 0, 0, _, _, h => absurd rfl h
  | _ :: _, 0, _ + 1, _, _, _ => rfl
  | _ :: _, _ + 1, 0, _, _, _ => rfl
  | _ :: t, i + 1, j + 1, v, d, h =>
    getD_set_ne t i j v d (fun hij => h (by omega))

theorem set_oob {α : Type} :
    ∀ (l : List α) (i : ℕ) (v : α), l.length ≤ i → l.set i v = l
  | [], _, _, _ => rfl
  | _ :: _, 0, _, h => absurd h (by simp)
  | a :: t, i + 1, v, h => by
    simpa [List.set] using set_oob t i v (Nat.le_of_succ_le_succ h)

theorem getD_mem {α : Type} :
    ∀ (l : List α) (i : ℕ) (d : α), i < l.length → l.getD i d ∈ l
  | a :: _, 0, _, _ => List.mem_cons_self a _
  | _ :: t, i + 1, d, h =>
    List.mem_cons_of_mem _ (getD_mem t i d (Nat.lt_of_succ_lt_succ h))

/-! ### Arithmetic lemmas about cell coordinates -/

namespace PoissonGenerator

theorem trunc_of_nonneg {q : ℚ} (h : 0 ≤ q) : trunc q = ⌊q⌋ := if_pos h

theorem abs_sub_lt_of_floor_div_eq {a b c : ℚ} (hc : 0 < c)
    (h : ⌊a / c⌋ = ⌊b / c⌋) : |a - b| < c := by
  have h1 : ((⌊a / c⌋ : ℤ) : ℚ) ≤ a / c := Int.floor_le _
  have h2 : a / c < (⌊a / c⌋ : ℚ) + 1 := Int.lt_floor_add_one _
  have h3 : ((⌊b / c⌋ : ℤ) : ℚ) ≤ b / c := Int.floor_le _
  have h4 : b / c < (⌊b / c⌋ : ℚ) + 1 := Int.lt_floor_add_one _
  have ha : a / c * c = a := div_mul_cancel₀ a hc.ne'
  have hb : b / c * c = b := div_mul_cancel₀ b hc.ne'
  rw [h] at h1 h2
  rw [abs_lt]
  constructor <;> nlinarith

theorem floor_div_le_floor_div_add_two {a b c : ℚ} (hc : 0 < c)
    (h : a - b < 2 * c) : ⌊a / c⌋ ≤ ⌊b / c⌋ + 2 := by
  have hdiv : a / c ≤ b / c + 2 := by
    rw [div_le_iff₀ hc] at *
    nlinarith [div_mul_cancel₀ b hc.ne']
  calc ⌊a / c⌋ ≤ ⌊b / c + 2⌋ := Int.floor_le_floor hdiv
    _ = ⌊b / c + (2 : ℤ)⌋ := by norm_num
    _ = ⌊b / c⌋ + 2 := Int.floor_add_int _ _

theorem sub_sq_le_dist2_x (p q : Point) : (p.x - q.x) ^ 2 ≤ dist2 p q := by
  have := sq_nonneg (p.y - q.y); simp only [dist2]; linarith

theorem sub_sq_le_dist2_y (p q : Point) : (p.y - q.y) ^ 2 ≤ dist2 p q := by
  have := sq_nonneg (p.x - q.x); simp only [dist2]; linarith

theorem abs_sub_lt_of_dist2_lt {u v m : ℚ} (hm : 0 < m) (h : (u - v) ^ 2 < m ^ 2) :
    |u - v| < m := by
  rw [abs_lt]
  constructor <;> nlinarith

/-- Bounds on the coordinates of any in-domain point: both domain shapes are
contained in the unit square. -/
theorem inDomain_coords {c : Bool} {p : Point} (h : inDomain c p = true) :
    0 ≤ p.x ∧ p.x ≤ 1 ∧ 0 ≤ p.y ∧ p.y ≤ 1 := by
  cases c <;>
    simp only [inDomain, Bool.false_eq_true, if_false, if_true, Point.isInRectangle,
      Point.isInCircle, decide_eq_true_eq] at h
  · exact ⟨h.1, h.2.2.1, h.2.1, h.2.2.2⟩
  · refine ⟨?_, ?_, ?_, ?_⟩ <;>
      nlinarith [sq_nonneg (p.x - 1/2), sq_nonneg (p.y - 1/2)]

/-- Two in-domain points assigned to the same grid cell are strictly closer
than `cellSize·√2` (squared: `dist2 < 2·cellSize²`). -/
theorem same_cell_close {p q : Point} {c : ℚ} (hc : 0 < c)
    (hp : 0 ≤ p.x) (hpy : 0 ≤ p.y) (hq : 0 ≤ q.x) (hqy : 0 ≤ q.y)
    (h : imageToGrid p c = imageToGrid q c) : dist2 p q < 2 * c ^ 2 := by
  have hx : trunc (p.x / c) = trunc (q.x / c) := congrArg GridPoint.x h
  have hy : trunc (p.y / c) = trunc (q.y / c) := congrArg GridPoint.y h
  rw [trunc_of_nonneg (div_nonneg hp hc.le), trunc_of_nonneg (div_nonneg hq hc.le)] at hx
  rw [trunc_of_nonneg (div_nonneg hpy hc.le), trunc_of_nonneg (div_nonneg hqy hc.le)] at hy
  have h1 : |p.x - q.x| < c := abs_sub_lt_of_floor_div_eq hc hx
  have h2 : |p.y - q.y| < c := abs_sub_lt_of_floor_div_eq hc hy
  rw [abs_lt] at h1 h2
  simp only [dist2]
  nlinarith

/-- A point within squared distance `m²` of another (with `m ≤ 2·cellSize`)
sits in a grid cell at offset at most 2 on each axis. -/
theorem cell_window {p q : Point} {c m : ℚ} (hc : 0 < c) (hm : 0 < m)
    (hm2c : m ≤ 2 * c)
    (hp : 0 ≤ p.x) (hpy : 0 ≤ p.y) (hq : 0 ≤ q.x) (hqy : 0 ≤ q.y)
    (hd : dist2 p q < m ^ 2) :
    (imageToGrid q c).x - (imageToGrid p c).x ≤ 2 ∧
      (imageToGrid p c).x - (imageToGrid q c).x ≤ 2 ∧
      (imageToGrid q c).y - (imageToGrid p c).y ≤ 2 ∧
      (imageToGrid p c).y - (imageToGrid q c).y ≤ 2 := by
  have hx : |p.x - q.x| < m :=
    abs_sub_lt_of_dist2_lt hm (lt_of_le_of_lt (sub_sq_le_dist2_x p q) hd)
  have hy : |p.y - q.y| < m :=
    abs_sub_lt_of_dist2_lt hm (lt_of_le_of_lt (sub_sq_le_dist2_y p q) hd)
  rw [abs_lt] at hx hy
  simp only [imageToGrid, trunc_of_nonneg (div_nonneg hp hc.le),
    trunc_of_nonneg (div_nonneg hq hc.le), trunc_of_nonneg (div_nonneg hpy hc.le),
    trunc_of_nonneg (div_nonneg hqy hc.le)]
  refine ⟨?_, ?_, ?_, ?_⟩
  · have hb := floor_div_le_floor_div_add_two hc (show q.x - p.x < 2 * c by linarith)
    omega
  · have hb := floor_div_le_floor_div_add_two hc (show p.x - q.x < 2 * c by linarith)
    omega
  · have hb := floor_div_le_floor_div_add_two hc (show q.y - p.y < 2 * c by linarith)
    omega
  · have hb := floor_div_le_floor_div_add_two hc (show p.y - q.y < 2 * c by linarith)
    omega

/-! ### Grid well-formedness and the sampler invariant -/

/-- Well-formedness of a sampler grid: the stored dimensions match the
actual extent of `cells`, and the grid is square (as every grid built by
`generatePoissonPoints` is). -/
structure GridWF (c : ℚ) (g : Grid) : Prop where
  cs : g.cellSize = c
  square : g.w = g.h
  rows : g.cells.length = g.h.toNat
  cols : ∀ row ∈ g.cells, row.length = g.w.toNat
  hnn : 0 ≤ g.h

/-- The cell `gp` denotes an in-range slot of `g` (row index bounded by the
row count `h`, column index by the row width `w`). -/
def cellInRange (g : Grid) (gp : GridPoint) : Prop :=
  0 ≤ gp.x ∧ gp.x < g.h ∧ 0 ≤ gp.y ∧ gp.y < g.w

theorem GridWF.create {w : ℤ} {c : ℚ} (hw : 0 ≤ w) : GridWF c (Grid.create w w c) where
  cs := rfl
  square := rfl
  rows := by simp [Grid.create]
  cols := by
    intro row hrow
    rw [List.eq_of_mem_replicate hrow]
    simp [Grid.create]
  hnn := hw

theorem insert_some_elim {c : ℚ} {g g2 : Grid} {p : Point} (wf : GridWF c g)
    (h : g.insert p = some g2) :
    cellInRange g (imageToGrid p c) ∧
      g2.w = g.w ∧ g2.h = g.h ∧ g2.cellSize = g.cellSize ∧
      g2.cells = setCell g.cells (imageToGrid p c).x.toNat (imageToGrid p c).y.toNat p := by
  rw [Grid.insert, wf.cs] at h
  split at h
  case isFalse => exact absurd h (by simp)
  case isTrue hg =>
    obtain ⟨h1, h2, h3, h4⟩ := hg
    have hrow : (g.cells.getD (imageToGrid p c).x.toNat []).length = g.w.toNat :=
      wf.cols _ (getD_mem _ _ _ h3)
    obtain rfl := (Option.some.inj h).symm
    refine ⟨⟨h1, ?_, h2, ?_⟩, rfl, rfl, wf.cs.symm, rfl⟩
    · rw [wf.rows] at h3; omega
    · rw [hrow] at h4; omega

theorem GridWF.setCell_pres {c : ℚ} {g : Grid} (wf : GridWF c g) {i j : ℕ} {p : Point}
    (hi : i < g.cells.length) :
    GridWF c { g with cells := setCell g.cells i j p } where
  cs := wf.cs
  square := wf.square
  rows := by simp [setCell, wf.rows]
  cols := by
    intro row hrow
    simp only [setCell] at hrow
    rcases List.mem_or_eq_of_mem_set hrow with hmem | heq
    · exact wf.cols row hmem
    · rw [heq]
      simp only [List.length_set]
      exact wf.cols _ (getD_mem _ _ _ hi)
  hnn := wf.hnn

theorem GridWF.insert_pres {c : ℚ} {g g2 : Grid} {p : Point} (wf : GridWF c g)
    (h : g.insert p = some g2) : GridWF c g2 := by
  rw [Grid.insert] at h
  split at h
  case isFalse => exact absurd h (by simp)
  case isTrue hg =>
    rw [← Option.some.inj h]
    exact wf.setCell_pres hg.2.2.1

theorem getCellN_setCell_self {cells : List (List Point)} {i j : ℕ} {p : Point}
    (hi : i < cells.length) (hj : j < (cells.getD i []).length) :
    getCellN (setCell cells i j p) i j = p := by
  rw [getCellN, setCell, getD_set_self _ _ _ _ hi, getD_set_self _ _ _ _ hj]

theorem getCellN_setCell_ne {cells : List (List Point)} {i j i2 j2 : ℕ} {p : Point}
    (hne : i ≠ i2 ∨ j ≠ j2) :
    getCellN (setCell cells i j p) i2 j2 = getCellN cells i2 j2 := by
  rcases hne with hne | hne
  · rw [getCellN, setCell, getD_set_ne _ _ _ _ _ hne, getCellN]
  · by_cases hi : i < cells.length
    · by_cases hii : i = i2
      · subst hii
        rw [getCellN, setCell, getD_set_self _ _ _ _ hi, getD_set_ne _ _ _ _ _ hne, getCellN]
      · rw [getCellN, setCell, getD_set_ne _ _ _ _ _ hii, getCellN]
    · rw [setCell, set_oob _ _ _ (Nat.le_of_not_lt hi)]

theorem offsetsD_eq : offsetsD = [-5, -4, -3, -2, -1, 0, 1, 2, 3, 4] := by decide

theorem mem_offsetsD {d : ℤ} : d ∈ offsetsD ↔ -5 ≤ d ∧ d < 5 := by
  rw [offsetsD_eq]
  simp only [List.mem_cons, List.not_mem_nil, or_false]
  omega

/-- If some in-range valid occupant within the scanned window is strictly
closer than `minDist`, the neighbourhood scan reports it. -/
theorem scan_true_of_witness {g : Grid} {c : Point} {m cs : ℚ} (di dj : ℤ)
    (hdi : -5 ≤ di ∧ di < 5) (hdj : -5 ≤ dj ∧ dj < 5)
    (hrange : 0 ≤ (imageToGrid c cs).x + di ∧ (imageToGrid c cs).x + di < g.w ∧
      0 ≤ (imageToGrid c cs).y + dj ∧ (imageToGrid c cs).y + dj < g.h)
    (hvalid : (getCellN g.cells ((imageToGrid c cs).x + di).toNat
        ((imageToGrid c cs).y + dj).toNat).valid_ = true)
    (hclose : distLt (getCellN g.cells ((imageToGrid c cs).x + di).toNat
        ((imageToGrid c cs).y + dj).toNat) c m = true) :
    g.isInNeighbourhood c m cs = true := by
  simp only [Grid.isInNeighbourhood, List.any_eq_true]
  exact ⟨di, mem_offsetsD.2 hdi,
    ⟨dj, mem_offsetsD.2 hdj, by
      simp only [Bool.and_eq_true, decide_eq_true_eq]
      exact ⟨hrange, hvalid, hclose⟩⟩⟩

/-- The sampler invariant maintained by the active-list loop: every accepted
point is in the domain, valid, pairwise separated by `minDist` (squared),
pairwise in distinct grid cells, and stored in its own in-range grid slot. -/
structure SamplerInv (isCircle : Bool) (m c : ℚ) (g : Grid) (sp : List Point) : Prop where
  wf : GridWF c g
  dom : ∀ p ∈ sp, inDomain isCircle p = true
  val : ∀ p ∈ sp, p.valid_ = true
  sep : sp.Pairwise fun p q => m ^ 2 ≤ dist2 p q
  cellSep : sp.Pairwise fun p q => imageToGrid p c ≠ imageToGrid q c
  stored : ∀ p ∈ sp, cellInRange g (imageToGrid p c) ∧
    getCellN g.cells (imageToGrid p c).x.toNat (imageToGrid p c).y.toNat = p

/-- Every previously accepted point is at squared distance at least `m²`
from a candidate that passed the neighbourhood test: the scan window of
`[-5, 4]²` cells around the candidate covers every cell that can hold a
point within `m ≤ 2·cellSize` of it. -/
theorem accepted_far {isCircle : Bool} {m c : ℚ} {g : Grid} {sp : List Point}
    {cand : Point} (hm : 0 < m) (hc : 0 < c) (hm2c : m ≤ 2 * c)
    (inv : SamplerInv isCircle m c g sp)
    (hdom : inDomain isCircle cand = true)
    (hscan : g.isInNeighbourhood cand m c = false) :
    ∀ q ∈ sp, m ^ 2 ≤ dist2 q cand := by
  intro q hq
  by_contra hlt
  push_neg at hlt
  obtain ⟨hcx, hcx1, hcy, hcy1⟩ := inDomain_coords hdom
  obtain ⟨hqx, hqx1, hqy, hqy1⟩ := inDomain_coords (inv.dom q hq)
  have hd : dist2 cand q < m ^ 2 := by
    have : dist2 q cand = dist2 cand q := by simp only [dist2]; ring
    rw [← this]; exact hlt
  obtain ⟨w1, w2, w3, w4⟩ := cell_window hc hm hm2c hcx hcy hqx hqy hd
  obtain ⟨hr1, hr2, hr3, hr4⟩ := (inv.stored q hq).1
  set di := (imageToGrid q c).x - (imageToGrid cand c).x with hdi
  set dj := (imageToGrid q c).y - (imageToGrid cand c).y with hdj
  have hx : (imageToGrid cand c).x + di = (imageToGrid q c).x := by omega
  have hy : (imageToGrid cand c).y + dj = (imageToGrid q c).y := by omega
  have hsq : g.w = g.h := inv.wf.square
  have htrue : g.isInNeighbourhood cand m c = true := by
    refine scan_true_of_witness di dj ⟨by omega, by omega⟩
      ⟨by omega, by omega⟩ ⟨by omega, by omega, by omega, by omega⟩ ?_ ?_
    · rw [hx, hy, (inv.stored q hq).2]
      exact inv.val q hq
    · rw [hx, hy, (inv.stored q hq).2, distLt, decide_eq_true_eq]
      exact ⟨hm.le, hlt⟩
  simp [hscan] at htrue

theorem GridPoint.eq_iff {a b : GridPoint} : a = b ↔ a.x = b.x ∧ a.y = b.y := by
  cases a; cases b; simp

theorem generateRandomPointAround_valid {σ : Type} (ctx : SamplerCtx σ) (p : Point)
    (m : ℚ) (s : σ) : (generateRandomPointAround ctx p m s).1.valid_ = true := rfl

theorem findFirstPoint_some {σ : Type} (ctx : SamplerCtx σ) (isCircle : Bool) :
    ∀ (tries : ℕ) (s : σ) (fp : Point) (s2 : σ),
      findFirstPoint ctx isCircle tries s = some (fp, s2) →
      inDomain isCircle fp = true ∧ fp.valid_ = true := by
  intro tries
  induction tries with
  | zero => intro s fp s2 h; exact absurd h (by simp [findFirstPoint])
  | succ tries ih =>
    intro s fp s2 h
    rw [findFirstPoint] at h
    split at h
    case isTrue hdom =>
      simp only [Option.some.injEq, Prod.mk.injEq] at h
      obtain ⟨hfp, _⟩ := h
      subst hfp
      exact ⟨hdom, rfl⟩
    case isFalse => exact ih _ _ _ h

/-- The single in-range slot written by a successful insert holds the
inserted point. -/
theorem stored_after_insert {c : ℚ} {g g2 : Grid} {p : Point} (wf : GridWF c g)
    (hins : g.insert p = some g2) :
    cellInRange g2 (imageToGrid p c) ∧
      getCellN g2.cells (imageToGrid p c).x.toNat (imageToGrid p c).y.toNat = p := by
  obtain ⟨⟨h1, h2, h3, h4⟩, hw, hh, hcs, hcells⟩ := insert_some_elim wf hins
  have hxlen : (imageToGrid p c).x.toNat < g.cells.length := by
    rw [wf.rows]; omega
  have hylen : (imageToGrid p c).y.toNat <
      (g.cells.getD (imageToGrid p c).x.toNat []).length := by
    rw [wf.cols _ (getD_mem _ _ _ hxlen)]; omega
  refine ⟨⟨h1, by omega, h3, by omega⟩, ?_⟩
  rw [hcells]
  exact getCellN_setCell_self hxlen hylen

/-- Inserting an accepted candidate preserves the sampler invariant. -/
theorem SamplerInv.insert_cand {isCircle : Bool} {m c : ℚ} {g g2 : Grid}
    {sp : List Point} {cand : Point}
    (hm : 0 < m) (hc : 0 < c) (hm2c : m ≤ 2 * c) (h2cm : 2 * c ^ 2 ≤ m ^ 2)
    (inv : SamplerInv isCircle m c g sp)
    (hdom : inDomain isCircle cand = true) (hval : cand.valid_ = true)
    (hscan : g.isInNeighbourhood cand m c = false)
    (hins : g.insert cand = some g2) :
    SamplerInv isCircle m c g2 (sp ++ [cand]) := by
  obtain ⟨hcir, hw, hh, hcs, hcells⟩ := insert_some_elim inv.wf hins
  have hfar : ∀ q ∈ sp, m ^ 2 ≤ dist2 q cand := accepted_far hm hc hm2c inv hdom hscan
  have hcellne : ∀ q ∈ sp, imageToGrid q c ≠ imageToGrid cand c := by
    intro q hq heq
    obtain ⟨hqx, _, hqy, _⟩ := inDomain_coords (inv.dom q hq)
    obtain ⟨hcx, _, hcy, _⟩ := inDomain_coords hdom
    have hclose := same_cell_close hc hqx hqy hcx hcy heq
    have := hfar q hq
    nlinarith
  refine ⟨inv.wf.insert_pres hins, ?_, ?_, ?_, ?_, ?_⟩
  · intro p hp
    rcases List.mem_append.1 hp with hp | hp
    · exact inv.dom p hp
    · rw [List.mem_singleton.1 hp]; exact hdom
  · intro p hp
    rcases List.mem_append.1 hp with hp | hp
    · exact inv.val p hp
    · rw [List.mem_singleton.1 hp]; exact hval
  · exact List.pairwise_append.2 ⟨inv.sep, List.pairwise_singleton .., by
      intro a ha b hb
      rw [List.mem_singleton.1 hb]
      exact hfar a ha⟩
  · exact List.pairwise_append.2 ⟨inv.cellSep, List.pairwise_singleton .., by
      intro a ha b hb
      rw [List.mem_singleton.1 hb]
      exact hcellne a ha⟩
  · intro p hp
    rcases List.mem_append.1 hp with hp | hp
    · obtain ⟨⟨s1, s2, s3, s4⟩, hget⟩ := inv.stored p hp
      have hne : imageToGrid p c ≠ imageToGrid cand c := hcellne p hp
      obtain ⟨t1, t2, t3, t4⟩ := hcir
      have hne2 : (imageToGrid cand c).x.toNat ≠ (imageToGrid p c).x.toNat ∨
          (imageToGrid cand c).y.toNat ≠ (imageToGrid p c).y.toNat := by
        by_contra hcon
        push_neg at hcon
        exact hne (GridPoint.eq_iff.2 ⟨by omega, by omega⟩)
      refine ⟨⟨s1, by omega, s3, by omega⟩, ?_⟩
      rw [hcells, getCellN_setCell_ne hne2]
      exact hget
    · rw [List.mem_singleton.1 hp]
      exact stored_after_insert inv.wf hins

/-- The candidate loop preserves the sampler invariant. -/
theorem tryCandidates_inv {σ : Type} (ctx : SamplerCtx σ) {isCircle : Bool} {m c : ℚ}
    (hm : 0 < m) (hc : 0 < c) (hm2c : m ≤ 2 * c) (h2cm : 2 * c ^ 2 ≤ m ^ 2)
    (point : Point) :
    ∀ (i : ℕ) (g : Grid) (pl sp : List Point) (s : σ)
      (out : Grid × List Point × List Point × σ),
      SamplerInv isCircle m c g sp →
      tryCandidates ctx isCircle m c point i g pl sp s = some out →
      SamplerInv isCircle m c out.1 out.2.2.1 := by
  intro i
  induction i with
  | zero =>
    intro g pl sp s out inv h
    rw [tryCandidates] at h
    obtain rfl := (Option.some.inj h).symm
    exact inv
  | succ i ih =>
    intro g pl sp s out inv h
    rw [tryCandidates] at h
    split at h
    case isTrue hcond =>
      rw [Bool.and_eq_true, Bool.not_eq_true'] at hcond
      obtain ⟨hdom, hscan⟩ := hcond
      split at h
      case h_1 => exact absurd h (by simp)
      case h_2 g2 hins =>
        exact ih g2 _ _ _ out
          (inv.insert_cand hm hc hm2c h2cm hdom
            (generateRandomPointAround_valid ctx point m s) hscan hins) h
    case isFalse => exact ih g pl sp _ out inv h

/-- The active-list loop preserves the sampler invariant; a successful run
returns a sample list satisfying it (for some final grid). -/
theorem poissonLoop_inv {σ : Type} (ctx : SamplerCtx σ) {n k : ℕ} {isCircle : Bool}
    {m c : ℚ} (hm : 0 < m) (hc : 0 < c) (hm2c : m ≤ 2 * c) (h2cm : 2 * c ^ 2 ≤ m ^ 2) :
    ∀ (fuel : ℕ) (g : Grid) (pl sp : List Point) (s : σ) (out : List Point),
      SamplerInv isCircle m c g sp →
      poissonLoop ctx n k isCircle m c fuel g pl sp s = some out →
      ∃ g2, SamplerInv isCircle m c g2 out := by
  intro fuel
  induction fuel with
  | zero =>
    intro g pl sp s out inv h
    rw [poissonLoop] at h
    split at h
    · exact ⟨g, Option.some.inj h ▸ inv⟩
    · exact absurd h (by simp)
  | succ fuel ih =>
    intro g pl sp s out inv h
    rw [poissonLoop] at h
    split at h
    · exact ⟨g, Option.some.inj h ▸ inv⟩
    · dsimp only at h
      split at h
      case h_1 => exact absurd h (by simp)
      case h_2 res hres =>
        exact ih res.1 res.2.1 res.2.2.1 res.2.2.2 out
          (tryCandidates_inv ctx hm hc hm2c h2cm _ k g _ sp _ res inv hres) h

/-- A successful run of `generatePoissonPoints` with an explicit positive
`minDist` satisfies the sampler invariant for the cell size
`minDist / sqrtQ 2`, under the float-tolerance hypotheses that the rational
model of `sqrt(2.0f)` is positive, at most `2`, and has square at least `2`. -/
theorem generatePoissonPoints_inv {σ : Type} (ctx : SamplerCtx σ)
    (n k tries fuel : ℕ) (isCircle : Bool) (m : ℚ) (s : σ) {pts : List Point}
    (hm : 0 < m) (hs0 : 0 < ctx.sqrtQ 2) (hs2 : ctx.sqrtQ 2 ≤ 2)
    (hss : 2 ≤ ctx.sqrtQ 2 ^ 2)
    (h : generatePoissonPoints ctx n s k isCircle m tries fuel = some pts) :
    ∃ g2, SamplerInv isCircle m (m / ctx.sqrtQ 2) g2 pts := by
  have hc : 0 < m / ctx.sqrtQ 2 := div_pos hm hs0
  have hm2c : m ≤ 2 * (m / ctx.sqrtQ 2) := by
    rw [mul_div_assoc', le_div_iff₀ hs0]
    nlinarith
  have h2cm : 2 * (m / ctx.sqrtQ 2) ^ 2 ≤ m ^ 2 := by
    rw [div_pow, mul_div_assoc', div_le_iff₀ (by positivity)]
    nlinarith [sq_nonneg m]
  rw [generatePoissonPoints] at h
  rw [if_neg (not_lt.2 hm.le)] at h
  split at h
  case h_1 => exact absurd h (by simp)
  case h_2 fp fs hfp =>
    obtain ⟨hdom, hval⟩ := findFirstPoint_some ctx isCircle tries s fp fs hfp
    split at h
    case h_1 => exact absurd h (by simp)
    case h_2 grid1 hins =>
      have hW : 0 ≤ ⌈(1 : ℚ) / (m / ctx.sqrtQ 2)⌉ := Int.ceil_nonneg (by positivity)
      have wf0 : GridWF (m / ctx.sqrtQ 2)
          (Grid.create ⌈(1 : ℚ) / (m / ctx.sqrtQ 2)⌉ ⌈(1 : ℚ) / (m / ctx.sqrtQ 2)⌉
            (m / ctx.sqrtQ 2)) := GridWF.create hW
      have inv1 : SamplerInv isCircle m (m / ctx.sqrtQ 2) grid1 [fp] := by
        refine ⟨wf0.insert_pres hins, ?_, ?_, ?_, ?_, ?_⟩
        · intro p hp; rw [List.mem_singleton.1 hp]; exact hdom
        · intro p hp; rw [List.mem_singleton.1 hp]; exact hval
        · exact List.pairwise_singleton ..
        · exact List.pairwise_singleton ..
        · intro p hp; rw [List.mem_singleton.1 hp]
          exact stored_after_insert wf0 hins
      exact poissonLoop_inv ctx hm hc hm2c h2cm fuel grid1 [fp] [fp] fs pts inv1 h

/-- Domain containment is preserved by the candidate loop, with no numeric
side conditions: a candidate is only ever accepted after passing the
domain-shape test. -/
theorem tryCandidates_dom {σ : Type} (ctx : SamplerCtx σ) {isCircle : Bool}
    {m c : ℚ} (point : Point) :
    ∀ (i : ℕ) (g : Grid) (pl sp : List Point) (s : σ)
      (out : Grid × List Point × List Point × σ),
      (∀ p ∈ sp, inDomain isCircle p = true) →
      tryCandidates ctx isCircle m c point i g pl sp s = some out →
      ∀ p ∈ out.2.2.1, inDomain isCircle p = true := by
  intro i
  induction i with
  | zero =>
    intro g pl sp s out hdom h
    rw [tryCandidates] at h
    obtain rfl := (Option.some.inj h).symm
    exact hdom
  | succ i ih =>
    intro g pl sp s out hdom h
    rw [tryCandidates] at h
    split at h
    case isTrue hcond =>
      rw [Bool.and_eq_true, Bool.not_eq_true'] at hcond
      split at h
      case h_1 => exact absurd h (by simp)
      case h_2 g2 hins =>
        refine ih g2 _ _ _ out ?_ h
        intro p hp
        rcases List.mem_append.1 hp with hp | hp
        · exact hdom p hp
        · rw [List.mem_singleton.1 hp]; exact hcond.1
    case isFalse => exact ih g pl sp _ out hdom h

theorem poissonLoop_dom {σ : Type} (ctx : SamplerCtx σ) {n k : ℕ} {isCircle : Bool}
    {m c : ℚ} :
    ∀ (fuel : ℕ) (g : Grid) (pl sp : List Point) (s : σ) (out : List Point),
      (∀ p ∈ sp, inDomain isCircle p = true) →
      poissonLoop ctx n k isCircle m c fuel g pl sp s = some out →
      ∀ p ∈ out, inDomain isCircle p = true := by
  intro fuel
  induction fuel with
  | zero =>
    intro g pl sp s out hdom h
    rw [poissonLoop] at h
    split at h
    · exact Option.some.inj h ▸ hdom
    · exact absurd h (by simp)
  | succ fuel ih =>
    intro g pl sp s out hdom h
    rw [poissonLoop] at h
    split at h
    · exact Option.some.inj h ▸ hdom
    · dsimp only at h
      split at h
      case h_1 => exact absurd h (by simp)
      case h_2 res hres =>
        exact ih res.1 res.2.1 res.2.2.1 res.2.2.2 out
          (tryCandidates_dom ctx _ k g _ sp _ res hdom hres) h

/-- Every point of a successful `generatePoissonPoints` run lies in the
selected domain shape; this holds for any `minDist` argument, including the
auto-derivation branch. -/
theorem generatePoissonPoints_dom {σ : Type} (ctx : SamplerCtx σ)
    (n k tries fuel : ℕ) (isCircle : Bool) (m0 : ℚ) (s : σ) {pts : List Point}
    (h : generatePoissonPoints ctx n s k isCircle m0 tries fuel = some pts) :
    ∀ p ∈ pts, inDomain isCircle p = true := by
  rw [generatePoissonPoints] at h
  split at h
  case h_1 => exact absurd h (by simp)
  case h_2 fp fs hfp =>
    obtain ⟨hdom, _⟩ := findFirstPoint_some ctx isCircle tries s fp fs hfp
    split at h
    case h_1 => exact absurd h (by simp)
    case h_2 grid1 hins =>
      refine poissonLoop_dom ctx fuel grid1 [fp] [fp] fs pts ?_ h
      intro p hp; rw [List.mem_singleton.1 hp]; exact hdom

/-- Specialization of domain containment to the default circle domain, as
used by the nested sampler call inside `GenerateCluster`. -/
theorem poisson_dom_circle {σ : Type} {ctx : SamplerCtx σ} {n k tries fuel : ℕ}
    {m0 : ℚ} {s : σ} {pts : List Point}
    (h : generatePoissonPoints ctx n s k true m0 tries fuel = some pts) :
    ∀ p ∈ pts, p.isInCircle = true := by
  intro p hp
  have hd := generatePoissonPoints_dom ctx n k tries fuel true m0 s h p hp
  simpa [inDomain] using hd

/-- Count bookkeeping of the candidate loop: each of the `i` candidate
attempts appends at most one accepted point. -/
theorem tryCandidates_count {σ : Type} (ctx : SamplerCtx σ) {isCircle : Bool}
    {m c : ℚ} (point : Point) :
    ∀ (i : ℕ) (g : Grid) (pl sp : List Point) (s : σ)
      (out : Grid × List Point × List Point × σ),
      tryCandidates ctx isCircle m c point i g pl sp s = some out →
      sp.length ≤ out.2.2.1.length ∧ out.2.2.1.length ≤ sp.length + i := by
  intro i
  induction i with
  | zero =>
    intro g pl sp s out h
    rw [tryCandidates] at h
    obtain rfl := (Option.some.inj h).symm
    dsimp only
    omega
  | succ i ih =>
    intro g pl sp s out h
    rw [tryCandidates] at h
    split at h
    case isTrue hcond =>
      split at h
      case h_1 => exact absurd h (by simp)
      case h_2 g2 hins =>
        have := ih g2 _ _ _ out h
        rw [List.length_append] at this
        simp only [List.length_singleton] at this
        omega
    case isFalse =>
      have := ih g pl sp _ out h
      omega

/-- When the loop guard fails the loop returns the current sample list,
whatever the fuel. -/
theorem poissonLoop_stop {σ : Type} (ctx : SamplerCtx σ) {n k : ℕ} {isCircle : Bool}
    {m c : ℚ} (fuel : ℕ) (g : Grid) (pl sp : List Point) (s : σ)
    (hstop : pl = [] ∨ ¬ sp.length < n) :
    poissonLoop ctx n k isCircle m c fuel g pl sp s = some sp := by
  rw [poissonLoop.eq_def]
  dsimp only
  rw [if_pos hstop]

/-- Fully applied variant of `poissonLoop_stop` for the guard that the
requested count is already reached. -/
theorem poissonLoop_stop2 {σ : Type} (ctx : SamplerCtx σ) (n k : ℕ)
    (isCircle : Bool) (m c : ℚ) (fuel : ℕ) (g : Grid) (pl sp : List Point)
    (s : σ) (hstop : ¬ sp.length < n) :
    poissonLoop ctx n k isCircle m c fuel g pl sp s = some sp :=
  poissonLoop_stop ctx fuel g pl sp s (Or.inr hstop)

theorem poissonLoop_count {σ : Type} (ctx : SamplerCtx σ) {n k : ℕ}
    {isCircle : Bool} {m c : ℚ} :
    ∀ (fuel : ℕ) (g : Grid) (pl sp : List Point) (s : σ) (out : List Point),
      poissonLoop ctx n k isCircle m c fuel g pl sp s = some out →
      sp.length ≤ out.length ∧ out.length ≤ max sp.length (n + k - 1) := by
  intro fuel
  induction fuel with
  | zero =>
    intro g pl sp s out h
    rw [poissonLoop] at h
    split at h
    · obtain rfl := Option.some.inj h; omega
    · exact absurd h (by simp)
  | succ fuel ih =>
    intro g pl sp s out h
    rw [poissonLoop] at h
    split at h
    case isTrue => obtain rfl := Option.some.inj h; omega
    case isFalse hguard =>
      push_neg at hguard
      dsimp only at h
      split at h
      case h_1 => exact absurd h (by simp)
      case h_2 res hres =>
        have h1 := tryCandidates_count ctx _ k g _ sp _ res hres
        have h2 := ih res.1 res.2.1 res.2.2.1 res.2.2.2 out h
        omega

end PoissonGenerator

namespace game

open PoissonGenerator

/-- The clearing loop leaves the placement grid unchanged: the source
iterates bucket elements by value, so the recategorization writes to copies
(this equation is the observable content of the range-for-by-value bug). -/
theorem clearingScan_eq (gridWidth gridHeight : ℤ) (origin : Object) (radius : ℚ)
    (grid : PlacementGrid) :
    clearingScan gridWidth gridHeight origin radius grid = grid := by
  rw [clearingScan]
  generalize clusterScanOffsets = l
  induction l generalizing grid with
  | nil => rfl
  | cons d t iht =>
    rw [List.foldl_cons]
    have hstep : (if origin.a + d.1 < 0 ∨ origin.a + d.1 > gridWidth - 1 ∨
        origin.b + d.2 < 0 ∨ origin.b + d.2 > gridHeight - 1 then grid
      else
        let _marked := (cellAt grid (origin.a + d.1) (origin.b + d.2)).map fun point =>
          if dist2v origin.pos point.pos < radius ^ 2 then
            { point with type := "default" }
          else point
        grid) = grid := by
      split <;> rfl
    rw [hstep]
    exact iht grid

/-- A bucket append changes exactly one bucket, by appending: every bucket
of the new grid extends the corresponding old bucket by `[]` or `[o]`. -/
theorem cellAt_appendAt (g : PlacementGrid) (a b : ℤ) (o : Object) (x y : ℤ) :
    ∃ t, cellAt (appendAt g a b o) x y = cellAt g x y ++ t ∧ (t = [] ∨ t = [o]) := by
  by_cases hxy : 0 ≤ x ∧ 0 ≤ y
  case neg =>
    refine ⟨[], ?_, Or.inl rfl⟩
    rw [cellAt, if_neg hxy, cellAt, if_neg hxy]
    rfl
  case pos =>
    rw [cellAt, if_pos hxy, cellAt, if_pos hxy, appendAt]
    by_cases hax : a.toNat = x.toNat
    · by_cases halen : a.toNat < g.length
      · rw [← hax, getD_set_self _ _ _ _ halen]
        by_cases hby : b.toNat = y.toNat
        · by_cases hblen : b.toNat < (g.getD a.toNat []).length
          · rw [← hby, getD_set_self _ _ _ _ hblen]
            exact ⟨[o], rfl, Or.inr rfl⟩
          · rw [set_oob _ _ _ (Nat.le_of_not_lt hblen), ← hby]
            exact ⟨[], (List.append_nil _).symm, Or.inl rfl⟩
        · rw [getD_set_ne _ _ _ _ _ hby]
          exact ⟨[], (List.append_nil _).symm, Or.inl rfl⟩
      · rw [set_oob _ _ _ (Nat.le_of_not_lt halen)]
        exact ⟨[], (List.append_nil _).symm, Or.inl rfl⟩
    · rw [getD_set_ne _ _ _ _ _ hax]
      exact ⟨[], (List.append_nil _).symm, Or.inl rfl⟩

theorem mem_cellAt_appendAt {g : PlacementGrid} {a b : ℤ} {o : Object} {x y : ℤ}
    {obj : Object} (h : obj ∈ cellAt (appendAt g a b o) x y) :
    obj ∈ cellAt g x y ∨ obj = o := by
  obtain ⟨t, ht, hcases⟩ := cellAt_appendAt g a b o x y
  rw [ht] at h
  rcases List.mem_append.1 h with h | h
  · exact Or.inl h
  · rcases hcases with rfl | rfl
    · exact absurd h (List.not_mem_nil _)
    · exact Or.inr (List.mem_singleton.1 h)

/-- The placement loop only appends to buckets. -/
theorem placeClusterPoints_extends (oriented : Vec2 → Vec2 → ℚ)
    (gridWidth gridHeight : ℤ) (cellSize : ℚ) (origin : Object) (radius : ℚ)
    (isBarnCluster : Bool) (rotStream : ℕ → ℕ) :
    ∀ (pts : List Point) (rIdx : ℕ) (g : PlacementGrid) (x y : ℤ),
      ∃ t, cellAt (placeClusterPoints oriented gridWidth gridHeight cellSize origin
        radius isBarnCluster rotStream pts rIdx g) x y = cellAt g x y ++ t := by
  intro pts
  induction pts with
  | nil =>
    intro rIdx g x y
    exact ⟨[], (List.append_nil _).symm⟩
  | cons p rest ih =>
    intro rIdx g x y
    rw [placeClusterPoints]
    split
    · exact ih rIdx g x y
    · split
      · obtain ⟨t1, ht1, _⟩ := cellAt_appendAt g _ _ _ x y
        obtain ⟨t2, ht2⟩ := ih _ _ x y
        exact ⟨t1 ++ t2, by rw [ht2, ht1, List.append_assoc]⟩
      · obtain ⟨t1, ht1, _⟩ := cellAt_appendAt g _ _ _ x y
        obtain ⟨t2, ht2⟩ := ih _ _ x y
        exact ⟨t1 ++ t2, by rw [ht2, ht1, List.append_assoc]⟩

/-- Characterization of the members added by the placement loop: anything in
the resulting grid is an original element or a placed cluster member whose
position derives from a sample point and whose cell passed the bound check. -/
theorem placeClusterPoints_mem (oriented : Vec2 → Vec2 → ℚ)
    (gridWidth gridHeight : ℤ) (cellSize : ℚ) (origin : Object) (radius : ℚ)
    (isBarnCluster : Bool) (rotStream : ℕ → ℕ) :
    ∀ (pts : List Point) (rIdx : ℕ) (g : PlacementGrid) (x y : ℤ) (obj : Object),
      obj ∈ cellAt (placeClusterPoints oriented gridWidth gridHeight cellSize origin
        radius isBarnCluster rotStream pts rIdx g) x y →
      obj ∈ cellAt g x y ∨ ∃ p ∈ pts,
        obj.pos = clusterMemberPos origin.pos radius p ∧
        0 ≤ obj.a ∧ obj.a ≤ gridWidth - 1 ∧ 0 ≤ obj.b ∧ obj.b ≤ gridHeight - 1 ∧
        (obj.type = "barn" ∨ obj.type = "tree") := by
  intro pts
  induction pts with
  | nil =>
    intro rIdx g x y obj h
    exact Or.inl h
  | cons p rest ih =>
    intro rIdx g x y obj h
    rw [placeClusterPoints] at h
    split at h
    case isTrue =>
      rcases ih rIdx g x y obj h with hmem | ⟨q, hq, hrest⟩
      · exact Or.inl hmem
      · exact Or.inr ⟨q, List.mem_cons_of_mem p hq, hrest⟩
    case isFalse hclip =>
      push_neg at hclip
      obtain ⟨hc1, hc2, hc3, hc4⟩ := hclip
      split at h
      case isTrue hbarn =>
        rcases ih _ _ x y obj h with hmem | ⟨q, hq, hrest⟩
        · rcases mem_cellAt_appendAt hmem with hmem | rfl
          · exact Or.inl hmem
          · exact Or.inr ⟨p, List.mem_cons_self p rest,
              rfl, by dsimp only; omega, by dsimp only; omega,
              by dsimp only; omega, by dsimp only; omega, Or.inl rfl⟩
        · exact Or.inr ⟨q, List.mem_cons_of_mem p hq, hrest⟩
      case isFalse hbarn =>
        rcases ih _ _ x y obj h with hmem | ⟨q, hq, hrest⟩
        · rcases mem_cellAt_appendAt hmem with hmem | rfl
          · exact Or.inl hmem
          · exact Or.inr ⟨p, List.mem_cons_self p rest,
              rfl, by dsimp only; omega, by dsimp only; omega,
              by dsimp only; omega, by dsimp only; omega, Or.inr rfl⟩
        · exact Or.inr ⟨q, List.mem_cons_of_mem p hq, hrest⟩

/-- A successful `GenerateCluster` run is the placement loop applied to the
points of its nested sampler run, on the unchanged input grid (the clearing
scan being a no-op). -/
theorem GenerateCluster_some_elim {σ : Type} (ctx : SamplerCtx σ)
    (oriented : Vec2 → Vec2 → ℚ) (gridWidth gridHeight : ℤ) (cellSize : ℚ)
    (barnDraw radiusDraw nDraw : ℕ) (rotStream : ℕ → ℕ) (s : σ)
    (seedTries fuel : ℕ) (grid : PlacementGrid) (origin : Object)
    {g2 : PlacementGrid}
    (h : GenerateCluster ctx oriented gridWidth gridHeight cellSize barnDraw
      radiusDraw nDraw rotStream s seedTries fuel grid origin = some g2) :
    ∃ pts, generatePoissonPoints ctx
        (if decide (barnDraw % 100 < 20) then nDraw % 6 + 1 else nDraw % 30 + 10)
        s 70 true (-1) seedTries fuel = some pts ∧
      g2 = placeClusterPoints oriented gridWidth gridHeight cellSize origin
        (clusterRadius (decide (barnDraw % 100 < 20)) radiusDraw cellSize)
        (decide (barnDraw % 100 < 20)) rotStream pts 0 grid := by
  rw [GenerateCluster] at h
  rw [clearingScan_eq] at h
  split at h
  case h_1 => exact absurd h (by simp)
  case h_2 pts hpts =>
    exact ⟨pts, hpts, (Option.some.inj h).symm⟩

end game

section ConcreteRuns

open PoissonGenerator game

/-- An empty 5×5 placement grid (a `MapGenerator` with `gridWidth =
gridHeight = 5` and `cellSize = 20`, i.e. a 100×100 world). -/
def gridEmpty5 : PlacementGrid := List.replicate 5 (List.replicate 5 [])

/-- A scatter placement of type `"hay"` at world position `(45, 45)`,
binned in cell `(2, 2)`. -/
def hayObj : Object := ⟨(45, 45), 2, 2, "hay", 0⟩

/-- A cluster origin at world position `(50, 50)` in cell `(2, 2)`. -/
def originObj : Object := ⟨(50, 50), 2, 2, "originPoint", 0⟩

/-- The 5×5 grid holding exactly the hay placement. -/
def gridC : PlacementGrid := appendAt gridEmpty5 2 2 hayObj

/-- The barn the concrete cluster run places at the origin's position. -/
def barnObj : Object := ⟨(50, 50), 2, 2, "barn", 0⟩

/-- The grid after the concrete cluster run: the hay bucket gains the barn,
and the hay placement itself is untouched. -/
def gridC2 : PlacementGrid := appendAt gridC 2 2 barnObj

theorem eval_sqrtQ2 : testCtx.sqrtQ 2 = 3/2 := by norm_num [testCtx]

/-- A complete concrete sampler run: one requested point, constant-half
PRNG, `minDist = 1/2`; the seed point `(1/2, 1/2)` is returned and the
active-list loop is never entered (fuel 0 suffices). -/
theorem eval_run1 :
    generatePoissonPoints testCtx 1 0 30 true (1/2) 1 0 =
      some [Point.mkXY (1/2) (1/2)] := by
  norm_num [generatePoissonPoints, findFirstPoint, poissonLoop, Grid.create, Grid.insert,
    imageToGrid, trunc, setCell, getCellN, testCtx, halfPRNG, inDomain, Point.isInCircle,
    Point.mkXY, Point.dflt, List.replicate]

/-- A complete concrete `GenerateCluster` run on `gridC`: barn cluster
(`barnDraw = 0`), clearing radius 20, nested sampler returns the single
point `(1/2, 1/2)`, placed as a barn at `(50, 50)` in cell `(2, 2)`.  The
hay placement at distance `√50 < 20` from the origin is scanned but NOT
recategorized. -/
theorem eval_cluster :
    GenerateCluster testCtx (fun _ _ => 0) 5 5 20 0 0 0 (fun _ => 0) 0 1 0 gridC originObj
      = some gridC2 := by
  norm_num [GenerateCluster, clearingScan, clusterScanOffsets, clusterRadius,
    clusterMemberPos, placeClusterPoints, cellAt, appendAt, generatePoissonPoints,
    findFirstPoint, poissonLoop, Grid.create, Grid.insert, imageToGrid, trunc, setCell,
    getCellN, testCtx, halfPRNG, inDomain, Point.isInCircle, Point.mkXY, Point.dflt,
    List.replicate, gridC, gridEmpty5, hayObj, originObj, barnObj, gridC2, dist2v]

theorem eval_cluster_cell : cellAt gridC2 2 2 = [hayObj, barnObj] := by
  norm_num [cellAt, appendAt, gridC2, gridC, gridEmpty5, List.replicate,
    Int.toNat, List.set, List.getD]

theorem eval_barn_mem : barnObj ∈ cellAt gridC2 2 2 := by
  rw [eval_cluster_cell]
  exact List.mem_cons_of_mem _ (List.mem_cons_self _ _)

end ConcreteRuns

section Claims

open PoissonGenerator game

/-- C1: for every run of `generatePoissonPoints` (any `numPoints`, PRNG
state, `newPointsCount`, domain shape, and positive `minDist`), every pair
of distinct points in the returned sequence is at distance at least
`minDist` from each other.  Distances are stated squared (`getDistance` is
the square root of `dist2`), and the rational model of the float constant
`sqrt(2.0f)` is assumed positive, at most 2, with square at least 2 — the
float-tolerance reading of the claim. -/
theorem poisson_min_dist_pairwise {σ : Type} (ctx : SamplerCtx σ)
    (n k tries fuel : ℕ) (isCircle : Bool) (m : ℚ) (s : σ) {pts : List Point}
    (hm : 0 < m) (hs0 : 0 < ctx.sqrtQ 2) (hs2 : ctx.sqrtQ 2 ≤ 2)
    (hss : 2 ≤ ctx.sqrtQ 2 ^ 2)
    (h : generatePoissonPoints ctx n s k isCircle m tries fuel = some pts) :
    pts.Pairwise fun p q => m ^ 2 ≤ dist2 p q := by
  obtain ⟨g2, inv⟩ :=
    generatePoissonPoints_inv ctx n k tries fuel isCircle m s hm hs0 hs2 hss h
  exact inv.sep

theorem poisson_min_dist_pairwise_witness :
    (0 : ℚ) < 1/2 ∧
      [Point.mkXY (1/2) (1/2)].Pairwise fun p q => ((1 : ℚ)/2) ^ 2 ≤ dist2 p q :=
  ⟨by norm_num,
    poisson_min_dist_pairwise testCtx 1 30 1 0 true (1/2) 0 (by norm_num)
      (by rw [eval_sqrtQ2]; norm_num) (by rw [eval_sqrtQ2]; norm_num)
      (by rw [eval_sqrtQ2]; norm_num) eval_run1⟩

/-- C9: throughout one run of `generatePoissonPoints` with cell size
`minDist / sqrt 2`, each grid cell holds at most one accepted point:
distinct returned points always map to distinct grid cells, which is why
`Grid::insert`'s overwrite-without-conflict-check never overwrites a valid
point.  Same float-tolerance hypotheses on the model of `sqrt(2.0f)` as in
C1. -/
theorem poisson_one_point_per_cell {σ : Type} (ctx : SamplerCtx σ)
    (n k tries fuel : ℕ) (isCircle : Bool) (m : ℚ) (s : σ) {pts : List Point}
    (hm : 0 < m) (hs0 : 0 < ctx.sqrtQ 2) (hs2 : ctx.sqrtQ 2 ≤ 2)
    (hss : 2 ≤ ctx.sqrtQ 2 ^ 2)
    (h : generatePoissonPoints ctx n s k isCircle m tries fuel = some pts) :
    pts.Pairwise fun p q =>
      imageToGrid p (m / ctx.sqrtQ 2) ≠ imageToGrid q (m / ctx.sqrtQ 2) := by
  obtain ⟨g2, inv⟩ :=
    generatePoissonPoints_inv ctx n k tries fuel isCircle m s hm hs0 hs2 hss h
  exact inv.cellSep

theorem poisson_one_point_per_cell_witness :
    (0 : ℚ) < 1/2 ∧
      [Point.mkXY (1/2) (1/2)].Pairwise fun p q =>
        imageToGrid p ((1 : ℚ)/2 / testCtx.sqrtQ 2) ≠
          imageToGrid q ((1 : ℚ)/2 / testCtx.sqrtQ 2) :=
  ⟨by norm_num,
    poisson_one_point_per_cell testCtx 1 30 1 0 true (1/2) 0 (by norm_num)
      (by rw [eval_sqrtQ2]; norm_num) (by rw [eval_sqrtQ2]; norm_num)
      (by rw [eval_sqrtQ2]; norm_num) eval_run1⟩

/-- C6: every point in the sequence returned by `generatePoissonPoints`
satisfies the selected domain predicate — `isInCircle` when `isCircle` is
true, `isInRectangle` otherwise — for the rejection-sampled seed point and
every accepted candidate, for any `minDist` argument (including the
auto-derived default). -/
theorem poisson_domain_containment {σ : Type} (ctx : SamplerCtx σ)
    (n k tries fuel : ℕ) (isCircle : Bool) (m0 : ℚ) (s : σ) {pts : List Point}
    (h : generatePoissonPoints ctx n s k isCircle m0 tries fuel = some pts) :
    ∀ p ∈ pts, inDomain isCircle p = true :=
  generatePoissonPoints_dom ctx n k tries fuel isCircle m0 s h

theorem poisson_domain_containment_witness :
    inDomain true (Point.mkXY (1/2) (1/2)) = true :=
  poisson_domain_containment testCtx 1 30 1 0 true (1/2) 0 eval_run1
    (Point.mkXY (1/2) (1/2)) (List.mem_singleton.2 rfl)

/-- C7: two calls to `generatePoissonPoints` with PRNGs in equal states (as
produced by constructing `DefaultPRNG` from the same explicit seed) and
identical parameters return identical output sequences.  The embedding
threads all PRNG state explicitly, so the determinism of the source
(`std::mt19937` seeded identically produces identical draws) becomes purity
of the embedded function in its seed state. -/
theorem poisson_determinism {σ : Type} (ctx : SamplerCtx σ)
    (n k tries fuel : ℕ) (isCircle : Bool) (m : ℚ) (s1 s2 : σ)
    (hseed : s1 = s2) :
    generatePoissonPoints ctx n s1 k isCircle m tries fuel =
      generatePoissonPoints ctx n s2 k isCircle m tries fuel := by
  rw [hseed]

theorem poisson_determinism_witness :
    generatePoissonPoints testCtx 1 0 30 true (1/2) 1 0 =
      generatePoissonPoints testCtx 1 0 30 true (1/2) 1 0 :=
  poisson_determinism testCtx 1 30 1 0 true (1/2) 0 0 rfl

/-- C3 (counterexample): with `numPoints = 0` (and a sound positive
`minDist`) `generatePoissonPoints` still returns one point: the seed point
is pushed unconditionally before the loop guard consults the requested
count.  This refutes both "output size ≤ requested count, always" and
"for numPoints = 0 it returns an empty sequence". -/
theorem poisson_count_counterexample :
    generatePoissonPoints testCtx 0 0 30 true (1/2) 1 0 =
        some [Point.mkXY (1/2) (1/2)] ∧
      [Point.mkXY (1/2) (1/2)].length = 1 := by
  refine ⟨?_, rfl⟩
  norm_num [generatePoissonPoints, findFirstPoint, poissonLoop, Grid.create, Grid.insert,
    imageToGrid, trunc, setCell, getCellN, testCtx, halfPRNG, inDomain, Point.isInCircle,
    Point.mkXY, Point.dflt, List.replicate]

/-- C3 (amended): a successful run always returns at least one point; the
count is bounded by `max 1 (numPoints + newPointsCount - 1)` (one candidate
batch may overshoot `numPoints`); and for `numPoints ≤ 1` the result is
exactly one point with the active-list loop never entered (fuel 0 yields
the same result). -/
theorem poisson_count_amended {σ : Type} (ctx : SamplerCtx σ)
    (n k tries fuel : ℕ) (isCircle : Bool) (m : ℚ) (s : σ) {pts : List Point}
    (h : generatePoissonPoints ctx n s k isCircle m tries fuel = some pts) :
    1 ≤ pts.length ∧ pts.length ≤ max 1 (n + k - 1) ∧
      (n ≤ 1 → pts.length = 1 ∧
        generatePoissonPoints ctx n s k isCircle m tries 0 = some pts) := by
  rw [generatePoissonPoints] at h
  split at h
  case h_1 => exact absurd h (by simp)
  case h_2 fp fs hfp =>
    split at h
    case h_1 => exact absurd h (by simp)
    case h_2 grid1 hins =>
      have hcount := poissonLoop_count ctx fuel grid1 [fp] [fp] fs pts h
      simp only [List.length_singleton] at hcount
      refine ⟨hcount.1, hcount.2, ?_⟩
      intro hn1
      have hn : ¬ ([fp] : List Point).length < n := by
        simp only [List.length_singleton]; omega
      rw [poissonLoop_stop2 ctx n k isCircle _ _ fuel grid1 [fp] [fp] fs hn] at h
      have hpts : pts = [fp] := (Option.some.inj h).symm
      refine ⟨by rw [hpts]; rfl, ?_⟩
      rw [generatePoissonPoints, hfp]
      dsimp only
      rw [hins]
      dsimp only
      rw [hpts]
      exact poissonLoop_stop2 ctx n k isCircle _ _ 0 grid1 [fp] [fp] fs hn

theorem poisson_count_amended_witness :
    1 ≤ [Point.mkXY (1/2) (1/2)].length ∧
      [Point.mkXY (1/2) (1/2)].length ≤ max 1 (1 + 30 - 1) ∧
      (1 ≤ 1 → [Point.mkXY (1/2) (1/2)].length = 1 ∧
        generatePoissonPoints testCtx 1 0 30 true (1/2) 1 0 =
          some [Point.mkXY (1/2) (1/2)]) :=
  poisson_count_amended testCtx 1 30 1 0 true (1/2) 0 eval_run1

/-- C2 (code bug): at a concrete failing input — a `"hay"` placement at
squared distance 50 < 20² from a barn-cluster origin, stored in the
origin's own cell, which the clearing loop scans (offset `(0, 0)`) — a full
`GenerateCluster` run leaves the placement's category unchanged: it is
still `"hay"` in its bucket afterwards and still passes the final
instantiation filter, where the claim (and the source's own comments)
require it to be recategorized to `"default"` and excluded.  The cause is
that the clearing loop iterates `for (auto point : bucket)` by value and
assigns to the copy. -/
theorem cluster_supersede_noop :
    dist2v originObj.pos hayObj.pos < clusterRadius true 0 20 ^ 2 ∧
    ((0 : ℤ), (0 : ℤ)) ∈ clusterScanOffsets ∧
    GenerateCluster testCtx (fun _ _ => 0) 5 5 20 0 0 0 (fun _ => 0) 0 1 0 gridC originObj
      = some gridC2 ∧
    cellAt gridC2 2 2 = [hayObj, barnObj] ∧
    hayObj.type = "hay" ∧ finalPassKeeps hayObj = true :=
  ⟨by norm_num [dist2v, originObj, hayObj, clusterRadius],
   by decide, eval_cluster, eval_cluster_cell, rfl, rfl⟩

/-- C5 (counterexample): no cell at a `+1` offset from the origin — east,
north, north-east, north-west or south-east neighbours — is ever visited by
the clearing scan, contradicting the claimed full 3×3 neighbourhood: the
loop bounds are `for (x = -1; x < 1)`, `for (y = -1; y < 1)`. -/
theorem clearing_window_counterexample :
    ((1, 0) : ℤ × ℤ) ∉ clusterScanOffsets ∧
    ((1, 1) : ℤ × ℤ) ∉ clusterScanOffsets ∧
    ((1, -1) : ℤ × ℤ) ∉ clusterScanOffsets ∧
    ((-1, 1) : ℤ × ℤ) ∉ clusterScanOffsets ∧
    ((0, 1) : ℤ × ℤ) ∉ clusterScanOffsets := by
  decide

/-- C5 (amended): the clearing scan of `GenerateCluster` iterates exactly
the 2×2 offset window `{-1, 0} × {-1, 0}` — the origin's own cell plus its
west, south and south-west neighbours, clipped at the map edges — not the
full 3×3 neighbourhood of the origin's cell. -/
theorem clearing_window_amended :
    clusterScanOffsets = [(-1, -1), (-1, 0), (0, -1), (0, 0)] ∧
    ∀ dx dy : ℤ, (dx, dy) ∈ clusterScanOffsets ↔
      (dx = -1 ∨ dx = 0) ∧ (dy = -1 ∨ dy = 0) := by
  have he : clusterScanOffsets = [(-1, -1), (-1, 0), (0, -1), (0, 0)] := by decide
  refine ⟨he, ?_⟩
  intro dx dy
  rw [he]
  simp only [List.mem_cons, List.not_mem_nil, or_false, Prod.mk.injEq]
  omega

/-- C10: a `GenerateCluster` call never modifies or removes existing grid
elements: every bucket of the resulting grid is the original bucket with
zero or more new cluster members appended (the clearing scan only writes
to by-value copies, and the placement loop only appends). -/
theorem cluster_frame_extends {σ : Type} (ctx : SamplerCtx σ)
    (oriented : Vec2 → Vec2 → ℚ) (gridWidth gridHeight : ℤ) (cellSize : ℚ)
    (barnDraw radiusDraw nDraw : ℕ) (rotStream : ℕ → ℕ) (s : σ)
    (seedTries fuel : ℕ) (grid : PlacementGrid) (origin : Object)
    {g2 : PlacementGrid}
    (h : GenerateCluster ctx oriented gridWidth gridHeight cellSize barnDraw
      radiusDraw nDraw rotStream s seedTries fuel grid origin = some g2) :
    ∀ x y : ℤ, ∃ t, cellAt g2 x y = cellAt grid x y ++ t := by
  obtain ⟨pts, hpts, rfl⟩ := GenerateCluster_some_elim ctx oriented gridWidth
    gridHeight cellSize barnDraw radiusDraw nDraw rotStream s seedTries fuel
    grid origin h
  intro x y
  exact placeClusterPoints_extends _ _ _ _ _ _ _ _ pts 0 grid x y

theorem cluster_frame_extends_witness :
    ∃ t, cellAt gridC2 2 2 = cellAt gridC 2 2 ++ t :=
  cluster_frame_extends testCtx (fun _ _ => 0) 5 5 20 0 0 0 (fun _ => 0) 0 1 0
    gridC originObj eval_cluster 2 2

/-- C8: every cluster member created by `GenerateCluster` is positioned at
`origin.pos + (p.x·radius, p.y·radius) - radius/2` for some point `p` of
the nested sampler run (which samples the unit disk, the default domain),
and therefore lies within the clearing radius of the origin's world
position: its squared distance from the origin is at most `radius²`. -/
theorem cluster_containment {σ : Type} (ctx : SamplerCtx σ)
    (oriented : Vec2 → Vec2 → ℚ) (gridWidth gridHeight : ℤ) (cellSize : ℚ)
    (barnDraw radiusDraw nDraw : ℕ) (rotStream : ℕ → ℕ) (s : σ)
    (seedTries fuel : ℕ) (grid : PlacementGrid) (origin : Object)
    {g2 : PlacementGrid}
    (h : GenerateCluster ctx oriented gridWidth gridHeight cellSize barnDraw
      radiusDraw nDraw rotStream s seedTries fuel grid origin = some g2) :
    ∀ (x y : ℤ) (obj : Object), obj ∈ cellAt g2 x y →
      obj ∈ cellAt grid x y ∨
      ((∃ p : Point, p.isInCircle = true ∧ obj.pos = clusterMemberPos origin.pos
          (clusterRadius (decide (barnDraw % 100 < 20)) radiusDraw cellSize) p) ∧
        dist2v obj.pos origin.pos ≤
          clusterRadius (decide (barnDraw % 100 < 20)) radiusDraw cellSize ^ 2) := by
  obtain ⟨pts, hpts, rfl⟩ := GenerateCluster_some_elim ctx oriented gridWidth
    gridHeight cellSize barnDraw radiusDraw nDraw rotStream s seedTries fuel
    grid origin h
  intro x y obj hobj
  rcases placeClusterPoints_mem _ _ _ _ _ _ _ _ pts 0 grid x y obj hobj with
    hmem | ⟨p, hp, hpos, _, _, _, _, _⟩
  · exact Or.inl hmem
  · have hdom := poisson_dom_circle hpts p hp
    refine Or.inr ⟨⟨p, hdom, hpos⟩, ?_⟩
    rw [Point.isInCircle, decide_eq_true_eq] at hdom
    rw [hpos]
    simp only [dist2v, clusterMemberPos]
    set r := clusterRadius (decide (barnDraw % 100 < 20)) radiusDraw cellSize with hr
    nlinarith [mul_le_mul_of_nonneg_left hdom (sq_nonneg r), sq_nonneg r]

theorem cluster_containment_witness :
    barnObj ∈ cellAt gridC 2 2 ∨
      ((∃ p : Point, p.isInCircle = true ∧ barnObj.pos = clusterMemberPos originObj.pos
          (clusterRadius (decide (0 % 100 < 20)) 0 20) p) ∧
        dist2v barnObj.pos originObj.pos ≤
          clusterRadius (decide (0 % 100 < 20)) 0 20 ^ 2) :=
  cluster_containment testCtx (fun _ _ => 0) 5 5 20 0 0 0 (fun _ => 0) 0 1 0
    gridC originObj eval_cluster 2 2 barnObj eval_barn_mem

/-- C4 (counterexample): the boundary point `(1, 1/2)` satisfies the
rectangle domain predicate, yet `Grid::insert` on a 4×4 sampling grid with
cell size 1/4 derives the out-of-range row index 4 and performs an
UNCHECKED write (undefined behaviour, modelled as `none`), and the binning
pass of `GenerateMap` reaches `grid.at(5)` on a 5×5 placement grid, which
throws instead of dropping the placement: neither of these two sites has
the claimed check-and-drop. -/
theorem bound_check_counterexample :
    (Point.mkXY 1 (1/2)).isInRectangle = true ∧
    (Grid.create 4 4 (1/4)).insert (Point.mkXY 1 (1/2)) = none ∧
    binPoints 100 100 20 5 5 (fun _ => 99) [Point.mkXY 1 (1/2)] 0 gridEmpty5 = none := by
  refine ⟨by norm_num [Point.isInRectangle, Point.mkXY], ?_, ?_⟩
  · norm_num [Grid.create, Grid.insert, imageToGrid, trunc, Point.mkXY, List.replicate]
  · norm_num [binPoints, Point.mkXY]

/-- C4 (amended): of the four access sites the claim names, only two are
bound-checked.  Proved here: (a) the placement pass of `GenerateCluster`
drops out-of-range cells, so every element of the resulting grid is either
an original element or has cell coordinates inside
`[0, gridWidth-1] × [0, gridHeight-1]`; and (b) `isInNeighbourhood` reads a
cell only under its explicit range check, so a positive scan exhibits an
in-range witness cell.  By contrast `Grid::insert` writes and the
`GenerateMap` binning pass accesses without any drop path (see the
counterexample): a boundary point such as `x = 1` causes an out-of-range
access there rather than being dropped. -/
theorem bound_check_amended :
    (∀ {σ : Type} (ctx : SamplerCtx σ) (oriented : Vec2 → Vec2 → ℚ)
      (gridWidth gridHeight : ℤ) (cellSize : ℚ) (barnDraw radiusDraw nDraw : ℕ)
      (rotStream : ℕ → ℕ) (s : σ) (seedTries fuel : ℕ) (grid : PlacementGrid)
      (origin : Object) (g2 : PlacementGrid),
      GenerateCluster ctx oriented gridWidth gridHeight cellSize barnDraw
        radiusDraw nDraw rotStream s seedTries fuel grid origin = some g2 →
      ∀ (x y : ℤ) (obj : Object), obj ∈ cellAt g2 x y →
        obj ∈ cellAt grid x y ∨
        (0 ≤ obj.a ∧ obj.a ≤ gridWidth - 1 ∧ 0 ≤ obj.b ∧ obj.b ≤ gridHeight - 1)) ∧
    (∀ (g : Grid) (p : Point) (m c : ℚ), g.isInNeighbourhood p m c = true →
      ∃ i j : ℤ, (0 ≤ i ∧ i < g.w ∧ 0 ≤ j ∧ j < g.h) ∧
        (getCellN g.cells i.toNat j.toNat).valid_ = true ∧
        distLt (getCellN g.cells i.toNat j.toNat) p m = true) := by
  constructor
  · intro σ ctx oriented gridWidth gridHeight cellSize barnDraw radiusDraw nDraw
      rotStream s seedTries fuel grid origin g2 h x y obj hobj
    obtain ⟨pts, hpts, rfl⟩ := GenerateCluster_some_elim ctx oriented gridWidth
      gridHeight cellSize barnDraw radiusDraw nDraw rotStream s seedTries fuel
      grid origin h
    rcases placeClusterPoints_mem _ _ _ _ _ _ _ _ pts 0 grid x y obj hobj with
      hmem | ⟨p, hp, _, h1, h2, h3, h4, _⟩
    · exact Or.inl hmem
    · exact Or.inr ⟨h1, h2, h3, h4⟩
  · intro g p m c h
    simp only [Grid.isInNeighbourhood, List.any_eq_true, Bool.and_eq_true,
      decide_eq_true_eq] at h
    obtain ⟨di, hdi, dj, hdj, hr, hv, hd⟩ := h
    exact ⟨(imageToGrid p c).x + di, (imageToGrid p c).y + dj, hr, hv, hd⟩

theorem bound_check_amended_witness :
    barnObj ∈ cellAt gridC 2 2 ∨
      (0 ≤ barnObj.a ∧ barnObj.a ≤ 5 - 1 ∧ 0 ≤ barnObj.b ∧ barnObj.b ≤ 5 - 1) :=
  bound_check_amended.1 testCtx (fun _ _ => 0) 5 5 20 0 0 0 (fun _ => 0) 0 1 0
    gridC originObj gridC2 eval_cluster 2 2 barnObj eval_barn_mem

end Claims
